import Mathlib

/-!
Verification of the coordinate scale calculator
(`src/js/models/scaleData/coordinateScaleCalculator.js`).

The source is a pure arithmetic module; we embed it shallowly over `ℚ`
(exact arithmetic standing for JavaScript numbers):
`Math.floor`/`Math.ceil` become `Int.floor`/`Int.ceil`,
`Math.pow(10, Math.floor(Math.log |x| / Math.LN10))` becomes
`10 ^ Int.log 10 |x|` (the exact base-10 floor-logarithm), and the two
optional request fields become `Option ℚ` (the source tests
`!stepCount`, which is also true for `0`, and `tui.util.isNumber` for
`minimumStepSize`).
-/

namespace CoordScale

/-- The reference values to normalize value (`SNAP_VALUES`). -/
def SNAP_VALUES : List ℚ := [1, 2, 5, 10]

/-- Default step pixel size (`DEFAULT_PIXELS_PER_STEP`). -/
def DEFAULT_PIXELS_PER_STEP : ℚ := 88

/-- `getDigits(number)`: `Math.pow(10, Math.floor(lg))` where `lg` is `1`
when `number === 0` and `log10 |number|` otherwise. -/
def getDigits (number : ℚ) : ℚ :=
  (10 : ℚ) ^ (if number = 0 then (1 : ℤ) else Int.log 10 |number|)

/-- The loop body of `getSnappedNumber`: scans the snap values in order;
`guideValue` is the midpoint of the current value and the next one
(`SNAP_VALUES[i + 1] || snapNumber` falls back to the current value at the
end of the array, making the midpoint the value itself); breaks as soon as
`number <= guideValue`, and when the loop runs off the end the last
`snapNumber` is returned. -/
def snapScan (number : ℚ) : List ℚ → ℚ
  | [] => 0
  | [x] => x
  | x :: y :: rest => if number ≤ (x + y) / 2 then x else snapScan number (y :: rest)

/-- `getSnappedNumber(number)`: select the value within `SNAP_VALUES`
closest to the given value. -/
def getSnappedNumber (number : ℚ) : ℚ :=
  snapScan number SNAP_VALUES

/-- `getNormalizedStep(step)`. -/
def getNormalizedStep (step : ℚ) : ℚ :=
  let placeNumber := getDigits step
  let simplifiedStepValue := step / placeNumber
  getSnappedNumber simplifiedStepValue * placeNumber

/-- A `{min, max}` limit pair. -/
structure Limit where
  min : ℚ
  max : ℚ
deriving Repr, DecidableEq

/-- `getNormalizedLimit(min, max, step)`. -/
def getNormalizedLimit (min max step : ℚ) : Limit :=
  let placeNumber := 1 / Min.min (getDigits max) (getDigits step)
  let fixedStep := step * placeNumber
  let newMax := (⌈max * placeNumber / fixedStep⌉ : ℚ) * fixedStep / placeNumber
  let newMin :=
    if min > step then
      (⌊min * placeNumber / fixedStep⌋ : ℚ) * fixedStep / placeNumber
    else if min < 0 then
      -((⌈|min| * placeNumber / fixedStep⌉ : ℚ) * fixedStep) / placeNumber
    else
      0
  { min := newMin, max := newMax }

/-- `getNormalizedStepCount(limitSize, step)`. -/
def getNormalizedStepCount (limitSize step : ℚ) : ℚ :=
  let multiplier := 1 / Min.min (getDigits limitSize) (getDigits step)
  (limitSize * multiplier) / (step * multiplier)

/-- A scale value `{limit, step, stepCount}`. -/
structure Scale where
  limit : Limit
  step : ℚ
  stepCount : ℚ
deriving Repr, DecidableEq

/-- `getNormalizedScale(scale)`. -/
def getNormalizedScale (scale : Scale) : Scale :=
  let step := getNormalizedStep scale.step
  let edge := getNormalizedLimit scale.limit.min scale.limit.max step
  let limitSize := |edge.max - edge.min|
  let stepCount := getNormalizedStepCount limitSize step
  { limit := { min := edge.min, max := edge.max }
    step := step
    stepCount := stepCount }

/-- `getRoughScale(min, max, offsetSize, stepCount, minimumStepSize)`.
`!stepCount` is modelled by `none` or `some 0`; the `minimumStepSize`
branch fires exactly when the option carries a number and `step` is below
it. -/
def getRoughScale (min max offsetSize : ℚ) (stepCount : Option ℚ)
    (minimumStepSize : Option ℚ) : Scale :=
  let limitSize := |max - min|
  let valuePerPixel := limitSize / offsetSize
  let stepCount1 : ℚ :=
    match stepCount with
    | none => (⌈offsetSize / DEFAULT_PIXELS_PER_STEP⌉ : ℚ)
    | some n => if n = 0 then (⌈offsetSize / DEFAULT_PIXELS_PER_STEP⌉ : ℚ) else n
  let pixelsPerStep := offsetSize / stepCount1
  let step := valuePerPixel * pixelsPerStep
  match minimumStepSize with
  | some m =>
    if step < m then
      { limit := { min := min, max := max }, step := m, stepCount := limitSize / m }
    else
      { limit := { min := min, max := max }, step := step, stepCount := stepCount1 }
  | none =>
    { limit := { min := min, max := max }, step := step, stepCount := stepCount1 }

/-- A scale request (the `options` object). -/
structure Options where
  min : ℚ
  max : ℚ
  offsetSize : ℚ
  stepCount : Option ℚ
  minimumStepSize : Option ℚ
deriving Repr, DecidableEq

/-- `coordinateScaleCalculator(options)`. -/
def coordinateScaleCalculator (options : Options) : Scale :=
  getNormalizedScale
    (getRoughScale options.min options.max options.offsetSize options.stepCount
      options.minimumStepSize)

/-! ### Basic facts about `getDigits` -/

theorem getDigits_pos (q : ℚ) : 0 < getDigits q := by
  unfold getDigits
  positivity

theorem getDigits_ne_zero (q : ℚ) : getDigits q ≠ 0 :=
  ne_of_gt (getDigits_pos q)

theorem getDigits_exists_zpow (q : ℚ) : ∃ k : ℤ, getDigits q = (10 : ℚ) ^ k := by
  unfold getDigits
  exact ⟨_, rfl⟩

theorem getDigits_zero : getDigits 0 = 10 := by
  unfold getDigits
  norm_num

/-- `Int.log 10` is determined by the sandwich `10 ^ k ≤ q < 10 ^ (k + 1)`. -/
theorem intLog_eq_of_sandwich (q : ℚ) (k : ℤ) (hq : 0 < q)
    (h1 : (10 : ℚ) ^ k ≤ q) (h2 : q < (10 : ℚ) ^ (k + 1)) : Int.log 10 q = k := by
  have hb : 1 < (10 : ℕ) := by norm_num
  have hk : k ≤ Int.log 10 q := by
    rw [← Int.zpow_le_iff_le_log hb hq]
    exact_mod_cast h1
  have hk2 : Int.log 10 q < k + 1 := by
    by_contra hcon
    push_neg at hcon
    have := (Int.zpow_le_iff_le_log hb hq).mpr hcon
    have : (10 : ℚ) ^ (k + 1) ≤ q := by exact_mod_cast this
    linarith
  omega

/-- Evaluate `getDigits` at a positive rational that lies in a known decade. -/
theorem getDigits_eq_of_pos (q : ℚ) (k : ℤ) (hq : 0 < q)
    (h1 : (10 : ℚ) ^ k ≤ q) (h2 : q < (10 : ℚ) ^ (k + 1)) :
    getDigits q = (10 : ℚ) ^ k := by
  unfold getDigits
  rw [if_neg (ne_of_gt hq), abs_of_pos hq, intLog_eq_of_sandwich q k hq h1 h2]

/-! ### Characterization of `getSnappedNumber` -/

theorem getSnappedNumber_eq (v : ℚ) :
    getSnappedNumber v =
      if v ≤ 3 / 2 then 1 else if v ≤ 7 / 2 then 2 else if v ≤ 15 / 2 then 5 else 10 := by
  unfold getSnappedNumber SNAP_VALUES
  simp only [snapScan]
  norm_num

theorem getSnappedNumber_mem (v : ℚ) :
    getSnappedNumber v = 1 ∨ getSnappedNumber v = 2 ∨ getSnappedNumber v = 5 ∨
      getSnappedNumber v = 10 := by
  rw [getSnappedNumber_eq]
  split_ifs <;> simp

theorem getSnappedNumber_pos (v : ℚ) : 0 < getSnappedNumber v := by
  rcases getSnappedNumber_mem v with h | h | h | h <;> rw [h] <;> norm_num

/-! ### Facts about `getNormalizedStep` -/

theorem getNormalizedStep_pos (s : ℚ) : 0 < getNormalizedStep s := by
  unfold getNormalizedStep
  exact mul_pos (getSnappedNumber_pos _) (getDigits_pos s)

theorem getNormalizedStep_nice (s : ℚ) :
    ∃ m k, (m = (1 : ℚ) ∨ m = 2 ∨ m = 5 ∨ m = 10) ∧
      getNormalizedStep s = m * (10 : ℚ) ^ (k : ℤ) := by
  obtain ⟨k, hk⟩ := getDigits_exists_zpow s
  refine ⟨getSnappedNumber (s / getDigits s), k, getSnappedNumber_mem _, ?_⟩
  unfold getNormalizedStep
  rw [← hk]

/-! ### Exact-arithmetic simplification of the normalizers -/

/-- In exact arithmetic the magnitude-compensating multiplier cancels:
`getNormalizedLimit` rounds `max` up to a multiple of `step` and applies the
three-case policy to `min`. -/
theorem getNormalizedLimit_eq (min max step : ℚ) :
    getNormalizedLimit min max step =
      { min :=
          if step < min then (⌊min / step⌋ : ℚ) * step
          else if min < 0 then -((⌈|min| / step⌉ : ℚ) * step)
          else 0
        max := (⌈max / step⌉ : ℚ) * step } := by
  unfold getNormalizedLimit
  have hd : Min.min (getDigits max) (getDigits step) ≠ 0 :=
    ne_of_gt (lt_min (getDigits_pos max) (getDigits_pos step))
  have hp : (1 : ℚ) / Min.min (getDigits max) (getDigits step) ≠ 0 :=
    one_div_ne_zero hd
  set p := (1 : ℚ) / Min.min (getDigits max) (getDigits step) with hpdef
  have cancel : ∀ x : ℚ, x * p / (step * p) = x / step := fun x =>
    mul_div_mul_right x step hp
  have back : ∀ x : ℚ, x * (step * p) / p = x * step := by
    intro x
    rw [← mul_assoc, mul_div_assoc, div_self hp, mul_one]
  have backneg : ∀ x : ℚ, -(x * (step * p)) / p = -(x * step) := by
    intro x
    rw [neg_div, ← mul_assoc, mul_div_assoc, div_self hp, mul_one]
  simp only [cancel, back, backneg, gt_iff_lt]

/-- In exact arithmetic the magnitude-compensated quotient is the plain
quotient. -/
theorem getNormalizedStepCount_eq (limitSize step : ℚ) :
    getNormalizedStepCount limitSize step = limitSize / step := by
  unfold getNormalizedStepCount
  have hd : Min.min (getDigits limitSize) (getDigits step) ≠ 0 :=
    ne_of_gt (lt_min (getDigits_pos limitSize) (getDigits_pos step))
  exact mul_div_mul_right limitSize step (one_div_ne_zero hd)

theorem normalizedLimit_min_eq (min max step : ℚ) :
    (getNormalizedLimit min max step).min =
      if step < min then (⌊min / step⌋ : ℚ) * step
      else if min < 0 then -((⌈|min| / step⌉ : ℚ) * step)
      else 0 := by
  rw [getNormalizedLimit_eq]

theorem normalizedLimit_max_eq (min max step : ℚ) :
    (getNormalizedLimit min max step).max = (⌈max / step⌉ : ℚ) * step := by
  rw [getNormalizedLimit_eq]

/-! ### Containment -/

theorem normalizedLimit_max_ge (min max step : ℚ) (h : 0 < step) :
    max ≤ (getNormalizedLimit min max step).max := by
  rw [normalizedLimit_max_eq]
  calc max = max / step * step := (div_mul_cancel₀ max (ne_of_gt h)).symm
    _ ≤ (⌈max / step⌉ : ℚ) * step :=
        mul_le_mul_of_nonneg_right (Int.le_ceil _) h.le

theorem normalizedLimit_min_le (min max step : ℚ) (h : 0 < step) :
    (getNormalizedLimit min max step).min ≤ min := by
  rw [normalizedLimit_min_eq]
  split_ifs with h1 h2
  · calc (⌊min / step⌋ : ℚ) * step ≤ min / step * step :=
          mul_le_mul_of_nonneg_right (Int.floor_le _) h.le
      _ = min := div_mul_cancel₀ min (ne_of_gt h)
  · have habs : |min| ≤ (⌈|min| / step⌉ : ℚ) * step := by
      calc |min| = |min| / step * step := (div_mul_cancel₀ _ (ne_of_gt h)).symm
        _ ≤ (⌈|min| / step⌉ : ℚ) * step :=
            mul_le_mul_of_nonneg_right (Int.le_ceil _) h.le
    rw [abs_of_neg h2] at habs ⊢
    linarith
  · exact not_lt.mp h2

/-! ### Projections of the orchestration pipeline -/

theorem getRoughScale_limit (min max offsetSize : ℚ) (sc ms : Option ℚ) :
    (getRoughScale min max offsetSize sc ms).limit = ⟨min, max⟩ := by
  unfold getRoughScale
  cases ms with
  | none => rfl
  | some m =>
    dsimp only
    split_ifs <;> rfl

theorem calculator_step (o : Options) :
    (coordinateScaleCalculator o).step =
      getNormalizedStep
        (getRoughScale o.min o.max o.offsetSize o.stepCount o.minimumStepSize).step := rfl

theorem calculator_step_pos (o : Options) : 0 < (coordinateScaleCalculator o).step := by
  rw [calculator_step]
  exact getNormalizedStep_pos _

theorem calculator_limit (o : Options) :
    (coordinateScaleCalculator o).limit =
      getNormalizedLimit o.min o.max (coordinateScaleCalculator o).step := by
  have h := getRoughScale_limit o.min o.max o.offsetSize o.stepCount o.minimumStepSize
  simp only [coordinateScaleCalculator, getNormalizedScale, h, calculator_step]

theorem calculator_stepCount (o : Options) :
    (coordinateScaleCalculator o).stepCount =
      getNormalizedStepCount
        |(coordinateScaleCalculator o).limit.max - (coordinateScaleCalculator o).limit.min|
        (coordinateScaleCalculator o).step := by
  have h := getRoughScale_limit o.min o.max o.offsetSize o.stepCount o.minimumStepSize
  simp only [coordinateScaleCalculator, getNormalizedScale, h, calculator_step,
    calculator_limit]

theorem getNormalizedStep_zero : getNormalizedStep 0 = 10 := by
  simp only [getNormalizedStep, getDigits_zero, zero_div, getSnappedNumber_eq]
  norm_num

theorem getRoughScale_degenerate_step (v offsetSize : ℚ) (sc : Option ℚ) :
    (getRoughScale v v offsetSize sc none).step = 0 := by
  simp only [getRoughScale, sub_self, abs_zero, zero_div, zero_mul]

/-! ### The claims -/

/-- Claim C2: for every request with finite `min ≤ max` and `offsetSize > 0`,
the result satisfies `limit.min ≤ min` and `limit.max ≥ max` (bounds are only
adjusted outward, never inward). -/
theorem claim_C2 (o : Options) (hminmax : o.min ≤ o.max) (hoff : 0 < o.offsetSize) :
    (coordinateScaleCalculator o).limit.min ≤ o.min ∧
      o.max ≤ (coordinateScaleCalculator o).limit.max := by
  rw [calculator_limit]
  exact ⟨normalizedLimit_min_le _ _ _ (calculator_step_pos o),
    normalizedLimit_max_ge _ _ _ (calculator_step_pos o)⟩

theorem claim_C2_witness :
    ((⟨0, 155, 264, none, none⟩ : Options).min ≤ (⟨0, 155, 264, none, none⟩ : Options).max ∧
      0 < (⟨0, 155, 264, none, none⟩ : Options).offsetSize) ∧
    ((coordinateScaleCalculator ⟨0, 155, 264, none, none⟩).limit.min ≤
        (⟨0, 155, 264, none, none⟩ : Options).min ∧
      (⟨0, 155, 264, none, none⟩ : Options).max ≤
        (coordinateScaleCalculator ⟨0, 155, 264, none, none⟩).limit.max) :=
  ⟨⟨by norm_num, by norm_num⟩,
    claim_C2 ⟨0, 155, 264, none, none⟩ (by norm_num) (by norm_num)⟩

/-- Claim C4: for every positive rough step, the normalized step (and hence
the step of every calculator result) is `m * 10 ^ k` with
`m ∈ {1, 2, 5, 10}` and `k : ℤ`. -/
theorem claim_C4 (s : ℚ) (hs : 0 < s) :
    (∃ m : ℚ, ∃ k : ℤ, (m = 1 ∨ m = 2 ∨ m = 5 ∨ m = 10) ∧
        getNormalizedStep s = m * (10 : ℚ) ^ k) ∧
    ∀ o : Options, ∃ m : ℚ, ∃ k : ℤ, (m = 1 ∨ m = 2 ∨ m = 5 ∨ m = 10) ∧
        (coordinateScaleCalculator o).step = m * (10 : ℚ) ^ k := by
  refine ⟨getNormalizedStep_nice s, fun o => ?_⟩
  rw [calculator_step]
  exact getNormalizedStep_nice _

theorem claim_C4_witness :
    (0 : ℚ) < 3 ∧
    ((∃ m : ℚ, ∃ k : ℤ, (m = 1 ∨ m = 2 ∨ m = 5 ∨ m = 10) ∧
        getNormalizedStep 3 = m * (10 : ℚ) ^ k) ∧
      ∀ o : Options, ∃ m : ℚ, ∃ k : ℤ, (m = 1 ∨ m = 2 ∨ m = 5 ∨ m = 10) ∧
        (coordinateScaleCalculator o).step = m * (10 : ℚ) ^ k) :=
  ⟨by norm_num, claim_C4 3 (by norm_num)⟩

/-- Claim C5: three-case `min` policy of `getNormalizedLimit` for a positive
normalized step: round down to a multiple of the step when `min > step`,
round the absolute value up and negate when `min < 0`, and snap to `0`
otherwise; the cases are mutually exclusive and exhaustive. -/
theorem claim_C5 (min max step : ℚ) (h : 0 < step) :
    (step < min ∧ ¬min < 0 ∧
        (getNormalizedLimit min max step).min = (⌊min / step⌋ : ℚ) * step) ∨
    (min < 0 ∧ ¬step < min ∧
        (getNormalizedLimit min max step).min = -((⌈|min| / step⌉ : ℚ) * step)) ∨
    (0 ≤ min ∧ min ≤ step ∧ (getNormalizedLimit min max step).min = 0) := by
  rw [normalizedLimit_min_eq]
  by_cases h1 : step < min
  · exact Or.inl ⟨h1, by linarith, by rw [if_pos h1]⟩
  · by_cases h2 : min < 0
    · exact Or.inr (Or.inl ⟨h2, h1, by rw [if_neg h1, if_pos h2]⟩)
    · exact Or.inr (Or.inr ⟨not_lt.mp h2, not_lt.mp h1, by rw [if_neg h1, if_neg h2]⟩)

theorem claim_C5_witness :
    (0 : ℚ) < 10 ∧
    (((10 : ℚ) < 5 ∧ ¬(5 : ℚ) < 0 ∧
        (getNormalizedLimit 5 95 10).min = (⌊(5 : ℚ) / 10⌋ : ℚ) * 10) ∨
      ((5 : ℚ) < 0 ∧ ¬(10 : ℚ) < 5 ∧
        (getNormalizedLimit 5 95 10).min = -((⌈|(5 : ℚ)| / 10⌉ : ℚ) * 10)) ∨
      ((0 : ℚ) ≤ 5 ∧ (5 : ℚ) ≤ 10 ∧ (getNormalizedLimit 5 95 10).min = 0)) :=
  ⟨by norm_num, claim_C5 5 95 10 (by norm_num)⟩

/-- Claim C7: the `stepCount` of every result equals
`(limit.max - limit.min) / step` (exactly, in exact arithmetic), and the
magnitude-compensated quotient equals the plain quotient. -/
theorem claim_C7 (o : Options) (hminmax : o.min ≤ o.max) :
    (coordinateScaleCalculator o).stepCount =
      ((coordinateScaleCalculator o).limit.max - (coordinateScaleCalculator o).limit.min) /
        (coordinateScaleCalculator o).step ∧
    ∀ a b : ℚ, getNormalizedStepCount a b = a / b := by
  refine ⟨?_, fun a b => getNormalizedStepCount_eq a b⟩
  rw [calculator_stepCount, getNormalizedStepCount_eq]
  have h1 : (coordinateScaleCalculator o).limit.min ≤ o.min := by
    rw [calculator_limit]
    exact normalizedLimit_min_le _ _ _ (calculator_step_pos o)
  have h2 : o.max ≤ (coordinateScaleCalculator o).limit.max := by
    rw [calculator_limit]
    exact normalizedLimit_max_ge _ _ _ (calculator_step_pos o)
  rw [abs_of_nonneg (by linarith)]

theorem claim_C7_witness :
    (⟨0, 155, 264, none, none⟩ : Options).min ≤ (⟨0, 155, 264, none, none⟩ : Options).max ∧
    ((coordinateScaleCalculator ⟨0, 155, 264, none, none⟩).stepCount =
      ((coordinateScaleCalculator ⟨0, 155, 264, none, none⟩).limit.max -
          (coordinateScaleCalculator ⟨0, 155, 264, none, none⟩).limit.min) /
        (coordinateScaleCalculator ⟨0, 155, 264, none, none⟩).step ∧
      ∀ a b : ℚ, getNormalizedStepCount a b = a / b) :=
  ⟨by norm_num, claim_C7 ⟨0, 155, 264, none, none⟩ (by norm_num)⟩

/-- Claim C9: `getSnappedNumber` is total, always returns an element of
`[1, 2, 5, 10]`, and picks the first snap value whose midpoint with the next
value (midpoints `1.5`, `3.5`, `7.5`, falling back to the last value itself)
is not exceeded; in particular every `v > 7.5` yields `10` and every
`v ≤ 1.5` yields `1`. -/
theorem claim_C9 (v : ℚ) :
    getSnappedNumber v =
      (if v ≤ 3 / 2 then 1 else if v ≤ 7 / 2 then 2 else if v ≤ 15 / 2 then 5 else 10) ∧
    (getSnappedNumber v = 1 ∨ getSnappedNumber v = 2 ∨ getSnappedNumber v = 5 ∨
      getSnappedNumber v = 10) :=
  ⟨getSnappedNumber_eq v, getSnappedNumber_mem v⟩

/-- Claim C10: for a degenerate range `min = max` with positive
`offsetSize` and no `minimumStepSize`, the calculator returns a well-defined
result with step exactly `10` (the rough step is `0`, and
`getNormalizedStep 0 = getSnappedNumber 0 * getDigits 0 = 1 * 10`), whose
limit contains the input value. -/
theorem claim_C10 (v offsetSize : ℚ) (hoff : 0 < offsetSize) (sc : Option ℚ) :
    (coordinateScaleCalculator ⟨v, v, offsetSize, sc, none⟩).step = 10 ∧
    getNormalizedStep 0 = 10 ∧
    (coordinateScaleCalculator ⟨v, v, offsetSize, sc, none⟩).limit.min ≤ v ∧
    v ≤ (coordinateScaleCalculator ⟨v, v, offsetSize, sc, none⟩).limit.max := by
  have hstep : (coordinateScaleCalculator ⟨v, v, offsetSize, sc, none⟩).step = 10 := by
    rw [calculator_step]
    show getNormalizedStep (getRoughScale v v offsetSize sc none).step = 10
    rw [getRoughScale_degenerate_step, getNormalizedStep_zero]
  refine ⟨hstep, getNormalizedStep_zero, ?_, ?_⟩
  · rw [calculator_limit]
    exact normalizedLimit_min_le _ _ _ (calculator_step_pos _)
  · rw [calculator_limit]
    exact normalizedLimit_max_ge _ _ _ (calculator_step_pos _)

theorem claim_C10_witness :
    (0 : ℚ) < 264 ∧
    ((coordinateScaleCalculator ⟨10, 10, 264, none, none⟩).step = 10 ∧
      getNormalizedStep 0 = 10 ∧
      (coordinateScaleCalculator ⟨10, 10, 264, none, none⟩).limit.min ≤ 10 ∧
      (10 : ℚ) ≤ (coordinateScaleCalculator ⟨10, 10, 264, none, none⟩).limit.max) :=
  ⟨by norm_num, claim_C10 10 264 (by norm_num) none⟩

/-! ### Concrete evaluations -/

theorem ceil_eval (a : ℚ) (z : ℤ) (h1 : (z : ℚ) - 1 < a) (h2 : a ≤ (z : ℚ)) :
    ⌈a⌉ = z :=
  Int.ceil_eq_iff.mpr ⟨h1, h2⟩

theorem getDigits_155_div_3 : getDigits (155 / 3 : ℚ) = 10 := by
  rw [getDigits_eq_of_pos (155 / 3) 1 (by norm_num) (by norm_num) (by norm_num)]
  norm_num

theorem getDigits_half : getDigits (1 / 2 : ℚ) = 1 / 10 := by
  rw [getDigits_eq_of_pos (1 / 2) (-1) (by norm_num) (by norm_num) (by norm_num)]
  norm_num

theorem getDigits_7 : getDigits (7 : ℚ) = 1 := by
  rw [getDigits_eq_of_pos 7 0 (by norm_num) (by norm_num) (by norm_num)]
  norm_num

theorem getDigits_15 : getDigits (15 : ℚ) = 10 := by
  rw [getDigits_eq_of_pos 15 1 (by norm_num) (by norm_num) (by norm_num)]
  norm_num

theorem normalizedStep_155_div_3 : getNormalizedStep (155 / 3 : ℚ) = 50 := by
  simp only [getNormalizedStep, getDigits_155_div_3, getSnappedNumber_eq]
  norm_num

theorem normalizedStep_half : getNormalizedStep (1 / 2 : ℚ) = 1 / 2 := by
  simp only [getNormalizedStep, getDigits_half, getSnappedNumber_eq]
  norm_num

theorem normalizedStep_7 : getNormalizedStep (7 : ℚ) = 5 := by
  simp only [getNormalizedStep, getDigits_7, getSnappedNumber_eq]
  norm_num

theorem normalizedStep_15 : getNormalizedStep (15 : ℚ) = 10 := by
  simp only [getNormalizedStep, getDigits_15, getSnappedNumber_eq]
  norm_num

theorem roughScale_scenarioA : getRoughScale 0 155 264 none none =
    { limit := { min := 0, max := 155 }, step := 155 / 3, stepCount := 3 } := by
  simp only [getRoughScale, DEFAULT_PIXELS_PER_STEP]
  norm_num

theorem scale_scenarioA : coordinateScaleCalculator ⟨0, 155, 264, none, none⟩ =
    { limit := { min := 0, max := 200 }, step := 50, stepCount := 4 } := by
  show getNormalizedScale (getRoughScale 0 155 264 none none) = _
  rw [roughScale_scenarioA]
  simp only [getNormalizedScale, normalizedStep_155_div_3, getNormalizedLimit_eq,
    getNormalizedStepCount_eq]
  norm_num [ceil_eval (31 / 10 : ℚ) 4 (by norm_num) (by norm_num)]

theorem roughScale_inverted : getRoughScale 1 0 100 none none =
    { limit := { min := 1, max := 0 }, step := 1 / 2, stepCount := 2 } := by
  simp only [getRoughScale, DEFAULT_PIXELS_PER_STEP]
  norm_num [ceil_eval (25 / 22 : ℚ) 2 (by norm_num) (by norm_num)]

theorem scale_inverted : coordinateScaleCalculator ⟨1, 0, 100, none, none⟩ =
    { limit := { min := 1, max := 0 }, step := 1 / 2, stepCount := 2 } := by
  show getNormalizedScale (getRoughScale 1 0 100 none none) = _
  rw [roughScale_inverted]
  simp only [getNormalizedScale, normalizedStep_half, getNormalizedLimit_eq,
    getNormalizedStepCount_eq]
  norm_num

theorem roughScale_refeed1 : getRoughScale 4 11 50 none none =
    { limit := { min := 4, max := 11 }, step := 7, stepCount := 1 } := by
  simp only [getRoughScale, DEFAULT_PIXELS_PER_STEP]
  norm_num [ceil_eval (25 / 44 : ℚ) 1 (by norm_num) (by norm_num)]

theorem scale_refeed1 : coordinateScaleCalculator ⟨4, 11, 50, none, none⟩ =
    { limit := { min := 0, max := 15 }, step := 5, stepCount := 3 } := by
  show getNormalizedScale (getRoughScale 4 11 50 none none) = _
  rw [roughScale_refeed1]
  simp only [getNormalizedScale, normalizedStep_7, getNormalizedLimit_eq,
    getNormalizedStepCount_eq]
  norm_num [ceil_eval (11 / 5 : ℚ) 3 (by norm_num) (by norm_num)]

theorem roughScale_refeed2 : getRoughScale 0 15 50 none none =
    { limit := { min := 0, max := 15 }, step := 15, stepCount := 1 } := by
  simp only [getRoughScale, DEFAULT_PIXELS_PER_STEP]
  norm_num [ceil_eval (25 / 44 : ℚ) 1 (by norm_num) (by norm_num)]

theorem scale_refeed2 : coordinateScaleCalculator ⟨0, 15, 50, none, none⟩ =
    { limit := { min := 0, max := 20 }, step := 10, stepCount := 2 } := by
  show getNormalizedScale (getRoughScale 0 15 50 none none) = _
  rw [roughScale_refeed2]
  simp only [getNormalizedScale, normalizedStep_15, getNormalizedLimit_eq,
    getNormalizedStepCount_eq]
  norm_num [ceil_eval (3 / 2 : ℚ) 2 (by norm_num) (by norm_num)]

/-- Claim C1, counterexample: for `min = 0`, `max = 155`, `offsetSize = 264`
the calculator does not return `step = 20` with `limit = {0, 160}`. -/
theorem claim_C1_counterexample :
    ¬((coordinateScaleCalculator ⟨0, 155, 264, none, none⟩).step = 20 ∧
      (coordinateScaleCalculator ⟨0, 155, 264, none, none⟩).limit =
        { min := 0, max := 160 }) := by
  rw [scale_scenarioA]
  intro h
  have := h.1
  norm_num at this

/-- Claim C1 (amended): for `min = 0`, `max = 155`, `offsetSize = 264` (no
step-count hint, no minimum step size) the calculator returns `step = 50`,
`limit = {min: 0, max: 200}` and `stepCount = 4`: the default pixel budget
gives `ceil(264 / 88) = 3` steps, the rough step `155 / 3` snaps to `50`,
and `155` rounds up to `200`. -/
theorem claim_C1 :
    coordinateScaleCalculator ⟨0, 155, 264, none, none⟩ =
      { limit := { min := 0, max := 200 }, step := 50, stepCount := 4 } :=
  scale_scenarioA

/-- Claim C3, counterexample: `getDigits 0` is not `1`. -/
theorem claim_C3_counterexample : ¬getDigits 0 = 1 := by
  unfold getDigits
  norm_num

/-- Claim C3 (amended): `getDigits 0 = 10`: the zero input is assigned the
log value `1` by the guard `number === 0 ? 1 : ...`, so the returned
magnitude is `10 ^ 1 = 10`, not `1`. -/
theorem claim_C3 : getDigits 0 = 10 := by
  unfold getDigits
  norm_num

/-- Claim C6 (code evaluated at the failing input): with the precondition
`min ≤ max` violated (`min = 1 > 0 = max`, `offsetSize = 100`) the code
does not fail fast: it returns the nonsensical scale
`{limit: {min: 1, max: 0}, step: 1/2, stepCount: 2}`, whose `limit.max` is
below its `limit.min`. -/
theorem claim_C6 :
    coordinateScaleCalculator ⟨1, 0, 100, none, none⟩ =
      { limit := { min := 1, max := 0 }, step := 1 / 2, stepCount := 2 } ∧
    (coordinateScaleCalculator ⟨1, 0, 100, none, none⟩).limit.max <
      (coordinateScaleCalculator ⟨1, 0, 100, none, none⟩).limit.min := by
  refine ⟨scale_inverted, ?_⟩
  rw [scale_inverted]
  norm_num

/-- Claim C8, counterexample: re-feeding the result of the request
`min = 4`, `max = 11`, `offsetSize = 50` (result `limit = {0, 15}`,
`step = 5`) as a new request with the same `offsetSize` yields a different
step (`10`) and a strictly looser `limit.max` (`20 > 15`). -/
theorem claim_C8_counterexample :
    (coordinateScaleCalculator
        ⟨(coordinateScaleCalculator ⟨4, 11, 50, none, none⟩).limit.min,
          (coordinateScaleCalculator ⟨4, 11, 50, none, none⟩).limit.max,
          50, none, none⟩).step ≠
      (coordinateScaleCalculator ⟨4, 11, 50, none, none⟩).step ∧
    (coordinateScaleCalculator ⟨4, 11, 50, none, none⟩).limit.max <
      (coordinateScaleCalculator
        ⟨(coordinateScaleCalculator ⟨4, 11, 50, none, none⟩).limit.min,
          (coordinateScaleCalculator ⟨4, 11, 50, none, none⟩).limit.max,
          50, none, none⟩).limit.max := by
  rw [scale_refeed1]
  show (coordinateScaleCalculator ⟨0, 15, 50, none, none⟩).step ≠ 5 ∧
    (15 : ℚ) < (coordinateScaleCalculator ⟨0, 15, 50, none, none⟩).limit.max
  rw [scale_refeed2]
  norm_num

/-- Claim C8 (amended): re-normalization is not idempotent: the second call
may return a different (coarser) step and may loosen the limit; what always
holds is containment: the second result's limit contains the first
result's limit. -/
theorem claim_C8 (o : Options) :
    (coordinateScaleCalculator
        ⟨(coordinateScaleCalculator o).limit.min, (coordinateScaleCalculator o).limit.max,
          o.offsetSize, o.stepCount, o.minimumStepSize⟩).limit.min ≤
      (coordinateScaleCalculator o).limit.min ∧
    (coordinateScaleCalculator o).limit.max ≤
      (coordinateScaleCalculator
        ⟨(coordinateScaleCalculator o).limit.min, (coordinateScaleCalculator o).limit.max,
          o.offsetSize, o.stepCount, o.minimumStepSize⟩).limit.max := by
  rw [calculator_limit
    ⟨(coordinateScaleCalculator o).limit.min, (coordinateScaleCalculator o).limit.max,
      o.offsetSize, o.stepCount, o.minimumStepSize⟩]
  exact ⟨normalizedLimit_min_le _ _ _ (calculator_step_pos _),
    normalizedLimit_max_ge _ _ _ (calculator_step_pos _)⟩

end CoordScale
